import Mathlib

/-!
Verification development for the HEPiC communications core.

The definitions below are shallow embeddings of the Python sources:
  - `GcodePositionMapper` from `src/HEPiC/utils/gcode_position_mapper.py`,
  - `TCPClient` (telemetry client) from `src/HEPiC/communications/tcp_client.py`,
  - `KlipperWorker` (control client) from `src/HEPiC/communications/klipper_worker.py`,
  - `ConnectionTester` from `src/src/communications/connection_tester.py`.

Python floats are modelled as exact rationals together with an explicit
`nan` value (and, where a field can hold Python `None`, an explicit `none`
value); the properties verified here concern the structure of the
computations, not IEEE rounding.
-/

namespace GcodePositionMapper

/-- A built `GcodePositionMapper` (`__init__` in
`src/HEPiC/utils/gcode_position_mapper.py`).  `gcode_lines` is the list
`gcode_content.splitlines(True)`: the lines of the program text with their
terminators kept.  Every element produced by `splitlines(True)` is a
nonempty string; theorems take that as a hypothesis. -/
structure Mapper where
  gcode_lines : List String

/-- The loop body of `_build_map`: starting from the running byte counter
`acc`, emit the start offset of each line and advance the counter by the
encoded UTF-8 byte length of the line (Python `len(line.encode('utf-8'))`,
Lean `String.utf8ByteSize`). -/
def buildOffsets (acc : Nat) : List String → List Nat
  | [] => []
  | l :: ls => acc :: buildOffsets (acc + l.utf8ByteSize) ls

/-- The `line_start_offsets` list filled by `_build_map` (initial counter 0). -/
def line_start_offsets (m : Mapper) : List Nat :=
  buildOffsets 0 m.gcode_lines

/-- The `total_lines` field: `len(self.line_start_offsets)`. -/
def total_lines (m : Mapper) : Nat :=
  (line_start_offsets m).length

/-- The `total_bytes` field: the final value of the running byte counter,
i.e. the sum of the encoded byte lengths of all lines. -/
def total_bytes (m : Mapper) : Nat :=
  (m.gcode_lines.map String.utf8ByteSize).sum

/-- Python's `bisect.bisect_right(a, x)` on a sorted list: the insertion
point lying after every entry `<= x`, which for a sorted list equals the
number of entries `<= x`.  The offsets list this is applied to is strictly
increasing (`sorted_line_start_offsets` below), so this count is exactly
the value the library binary search returns. -/
def bisect_right (a : List Nat) (x : Int) : Nat :=
  a.countP (fun v : Nat => decide ((v : Int) ≤ x))

/-- The query `get_line_number` (called `line_for_offset` in the spec):
negative positions return 1, otherwise
`min(bisect.bisect_right(self.line_start_offsets, p), self.total_lines)`. -/
def get_line_number (m : Mapper) (p : Int) : Nat :=
  if p < 0 then 1
  else min (bisect_right (line_start_offsets m) p) (total_lines m)

/-- Start offset of 1-based line `k` (index `k - 1` of the offsets list). -/
def offset_of_line (m : Mapper) (k : Nat) : Nat :=
  (line_start_offsets m).getD (k - 1) 0

theorem utf8_pos (l : String) (h : l ≠ "") : 0 < l.utf8ByteSize := by
  cases l with
  | mk data =>
    cases data with
    | nil => exact absurd rfl h
    | cons c cs =>
      have h2 : String.utf8ByteSize ⟨c :: cs⟩ = String.utf8ByteSize ⟨cs⟩ + c.utf8Size := rfl
      have := Char.utf8Size_pos c
      omega

theorem length_buildOffsets (acc : Nat) (ls : List String) :
    (buildOffsets acc ls).length = ls.length := by
  induction ls generalizing acc with
  | nil => rfl
  | cons l ls ih => simp [buildOffsets, ih]

theorem mem_buildOffsets_le (acc : Nat) (ls : List String) :
    ∀ x ∈ buildOffsets acc ls, acc ≤ x := by
  induction ls generalizing acc with
  | nil => intro x hx; simp [buildOffsets] at hx
  | cons l ls ih =>
    intro x hx
    simp only [buildOffsets, List.mem_cons] at hx
    rcases hx with rfl | hx
    · exact le_refl _
    · have := ih (acc + l.utf8ByteSize) x hx
      omega

theorem sorted_buildOffsets (acc : Nat) (ls : List String)
    (h : ∀ l ∈ ls, l ≠ "") : (buildOffsets acc ls).Sorted (· < ·) := by
  induction ls generalizing acc with
  | nil => simp [buildOffsets]
  | cons l ls ih =>
    have hl : 0 < l.utf8ByteSize := utf8_pos l (h l (by simp))
    have hrest := ih (acc + l.utf8ByteSize) (fun x hx => h x (by simp [hx]))
    refine List.sorted_cons.mpr ⟨?_, hrest⟩
    intro b hb
    have := mem_buildOffsets_le (acc + l.utf8ByteSize) ls b hb
    omega

theorem mem_buildOffsets_lt (acc : Nat) (ls : List String)
    (h : ∀ l ∈ ls, l ≠ "") :
    ∀ x ∈ buildOffsets acc ls, x < acc + (ls.map String.utf8ByteSize).sum := by
  induction ls generalizing acc with
  | nil => intro x hx; simp [buildOffsets] at hx
  | cons l ls ih =>
    intro x hx
    have hl : 0 < l.utf8ByteSize := utf8_pos l (h l (by simp))
    simp only [buildOffsets, List.mem_cons] at hx
    simp only [List.map_cons, List.sum_cons]
    rcases hx with rfl | hx
    · omega
    · have := ih (acc + l.utf8ByteSize) (fun y hy => h y (by simp [hy])) x hx
      omega

theorem buildOffsets_getD (acc : Nat) (ls : List String) (i : Nat)
    (hi : i < ls.length) :
    (buildOffsets acc ls).getD i 0 = acc + ((ls.take i).map String.utf8ByteSize).sum := by
  induction ls generalizing acc i with
  | nil => simp at hi
  | cons l ls ih =>
    cases i with
    | zero => simp [buildOffsets]
    | succ i =>
      have hi2 : i < ls.length := by simpa using hi
      simp only [buildOffsets, List.getD_cons_succ, List.take_succ_cons,
        List.map_cons, List.sum_cons]
      rw [ih (acc + l.utf8ByteSize) i hi2]
      omega

theorem sorted_line_start_offsets (m : Mapper)
    (h : ∀ l ∈ m.gcode_lines, l ≠ "") :
    (line_start_offsets m).Sorted (· < ·) :=
  sorted_buildOffsets 0 m.gcode_lines h

theorem sorted_getD_le {a : List Nat} (ha : a.Sorted (· < ·)) {i j : Nat}
    (hij : i ≤ j) (hj : j < a.length) : a.getD i 0 ≤ a.getD j 0 := by
  rcases Nat.lt_or_ge i j with hlt | hge
  · have hi : i < a.length := lt_trans hlt hj
    have := ha.rel_get_of_lt (a := ⟨i, hi⟩) (b := ⟨j, hj⟩) hlt
    rw [List.getD_eq_getElem a 0 hi, List.getD_eq_getElem a 0 hj]
    exact le_of_lt this
  · have : i = j := le_antisymm hij hge
    subst this
    exact le_refl _

theorem sorted_getD_lt {a : List Nat} (ha : a.Sorted (· < ·)) {i j : Nat}
    (hij : i < j) (hj : j < a.length) : a.getD i 0 < a.getD j 0 := by
  have hi : i < a.length := lt_trans hij hj
  have := ha.rel_get_of_lt (a := ⟨i, hi⟩) (b := ⟨j, hj⟩) hij
  rw [List.getD_eq_getElem a 0 hi, List.getD_eq_getElem a 0 hj]
  exact this

theorem bisect_right_le_length (a : List Nat) (x : Int) :
    bisect_right a x ≤ a.length := by
  unfold bisect_right
  exact List.countP_le_length _

theorem bisect_right_spec (a : List Nat) (ha : a.Sorted (· < ·)) (x : Int) :
    (∀ i, i < bisect_right a x → ((a.getD i 0 : Nat) : Int) ≤ x) ∧
    (∀ i, bisect_right a x ≤ i → i < a.length → x < ((a.getD i 0 : Nat) : Int)) := by
  induction a with
  | nil =>
    constructor
    · intro i hi; simp [bisect_right] at hi
    · intro i _ hi; simp at hi
  | cons h t ih =>
    have hsc := List.sorted_cons.mp ha
    have iht := ih hsc.2
    by_cases hx : ((h : Nat) : Int) ≤ x
    · have hc : bisect_right (h :: t) x = bisect_right t x + 1 := by
        simp [bisect_right, List.countP_cons, hx]
      constructor
      · intro i hi
        cases i with
        | zero => simpa using hx
        | succ i =>
          rw [hc] at hi
          have := iht.1 i (by omega)
          simpa using this
      · intro i hi hlen
        cases i with
        | zero => omega
        | succ i =>
          rw [hc] at hi
          have := iht.2 i (by omega) (by simpa using hlen)
          simpa using this
    · have hxlt : x < ((h : Nat) : Int) := by omega
      have hall : ∀ y ∈ h :: t, ¬ ((y : Nat) : Int) ≤ x := by
        intro y hy
        rcases List.mem_cons.mp hy with rfl | hyt
        · exact hx
        · have hhy : h < y := hsc.1 y hyt
          intro hle
          apply hx
          have h3 : ((h : Nat) : Int) ≤ ((y : Nat) : Int) := by exact_mod_cast le_of_lt hhy
          omega
      have hc : bisect_right (h :: t) x = 0 := by
        unfold bisect_right
        rw [List.countP_eq_zero]
        intro y hy
        simpa using hall y hy
      constructor
      · intro i hi; omega
      · intro i _ hlen
        have hmem : (h :: t).getD i 0 ∈ h :: t := by
          rw [List.getD_eq_getElem _ 0 hlen]
          exact List.getElem_mem hlen
        have := hall _ hmem
        omega

theorem bisect_right_eq {a : List Nat} (ha : a.Sorted (· < ·)) {x : Int}
    {k : Nat} (hk : k ≤ a.length)
    (h1 : ∀ i, i < k → ((a.getD i 0 : Nat) : Int) ≤ x)
    (h2 : ∀ i, k ≤ i → i < a.length → x < ((a.getD i 0 : Nat) : Int)) :
    bisect_right a x = k := by
  have hs := bisect_right_spec a ha x
  have hle := bisect_right_le_length a x
  rcases Nat.lt_trichotomy (bisect_right a x) k with hlt | heq | hgt
  · exact absurd (h1 _ hlt) (not_le.mpr (hs.2 _ (le_refl _) (by omega)))
  · exact heq
  · exact absurd (hs.1 _ hgt) (not_le.mpr (h2 _ (le_refl _) (by omega)))

theorem length_line_start_offsets (m : Mapper) :
    (line_start_offsets m).length = m.gcode_lines.length :=
  length_buildOffsets 0 m.gcode_lines

/-- C5: for every built GcodePositionMapper (a nonempty program text split
into its nonempty kept-terminator lines) and every integer `p`: if `p < 0`
the query returns 1; otherwise it returns the greatest 1-based index `i`
with `offsets[i] <= p`, which never exceeds the total line count; and any
`p` at or beyond the total byte length returns the last line rather than an
error or an out-of-range value. -/
theorem get_line_number_spec (m : Mapper) (hne : ∀ l ∈ m.gcode_lines, l ≠ "")
    (hnil : m.gcode_lines ≠ []) (p : Int) :
    (p < 0 → get_line_number m p = 1) ∧
    (0 ≤ p →
      1 ≤ get_line_number m p ∧
      get_line_number m p ≤ total_lines m ∧
      (((line_start_offsets m).getD (get_line_number m p - 1) 0 : Nat) : Int) ≤ p ∧
      ∀ i : Nat, 1 ≤ i → i ≤ total_lines m →
        ((((line_start_offsets m).getD (i - 1) 0 : Nat) : Int) ≤ p) →
        i ≤ get_line_number m p) ∧
    ((total_bytes m : Int) ≤ p → get_line_number m p = total_lines m) := by
  have hsorted := sorted_line_start_offsets m hne
  have hlen0 : 0 < (line_start_offsets m).length := by
    rw [length_line_start_offsets]
    cases hgl : m.gcode_lines with
    | nil => exact absurd hgl hnil
    | cons a as => simp
  have hhead : (line_start_offsets m).getD 0 0 = 0 := by
    unfold line_start_offsets
    cases hgl : m.gcode_lines with
    | nil => exact absurd hgl hnil
    | cons a as => simp [buildOffsets]
  have hb := bisect_right_spec (line_start_offsets m) hsorted p
  have hble := bisect_right_le_length (line_start_offsets m) p
  refine ⟨?_, ?_, ?_⟩
  · intro hp; simp [get_line_number, hp]
  · intro hp
    have hnp : ¬ p < 0 := not_lt.mpr hp
    have hpos : 1 ≤ bisect_right (line_start_offsets m) p := by
      by_contra hc
      push_neg at hc
      have := hb.2 0 (by omega) hlen0
      rw [hhead] at this
      omega
    have hr : get_line_number m p = bisect_right (line_start_offsets m) p := by
      unfold get_line_number total_lines
      rw [if_neg hnp]
      exact min_eq_left hble
    refine ⟨by omega, ?_, ?_, ?_⟩
    · rw [hr]; exact hble
    · rw [hr]; exact hb.1 _ (by omega)
    · intro i hi1 hi2 hi3
      rw [hr]
      by_contra hc
      push_neg at hc
      have := hb.2 (i - 1) (by omega) (by unfold total_lines at hi2; omega)
      omega
  · intro hp
    have hp0 : (0 : Int) ≤ p := le_trans (by positivity) hp
    have hnp : ¬ p < 0 := not_lt.mpr hp0
    have hall : bisect_right (line_start_offsets m) p = (line_start_offsets m).length := by
      unfold bisect_right
      rw [List.countP_eq_length]
      intro y hy
      have hlt := mem_buildOffsets_lt 0 m.gcode_lines hne y hy
      simp only [decide_eq_true_eq]
      have h2 : (y : Int) < (total_bytes m : Int) := by
        unfold total_bytes
        have h3 : y < (m.gcode_lines.map String.utf8ByteSize).sum := by omega
        exact_mod_cast h3
      omega
    unfold get_line_number total_lines
    rw [if_neg hnp, hall]
    exact min_self _

/-- C6: the mapper's build accumulates the encoded UTF-8 byte length of
each kept-terminator line: the start offset of line `k` is the byte-length
sum of the first `k - 1` lines; querying that offset returns `k`; and
querying that offset plus one still returns `k` unless the next line starts
exactly there.  This holds for every program text, multi-byte lines
included (`String.utf8ByteSize` counts encoded bytes, not characters). -/
theorem round_trip (m : Mapper) (hne : ∀ l ∈ m.gcode_lines, l ≠ "")
    (k : Nat) (hk1 : 1 ≤ k) (hk2 : k ≤ total_lines m) :
    offset_of_line m k = ((m.gcode_lines.take (k - 1)).map String.utf8ByteSize).sum ∧
    get_line_number m ((offset_of_line m k : Nat) : Int) = k ∧
    ((k < total_lines m → (line_start_offsets m).getD k 0 ≠ offset_of_line m k + 1) →
      get_line_number m (((offset_of_line m k + 1 : Nat) : Int)) = k) := by
  have hsorted := sorted_line_start_offsets m hne
  have hlen : (line_start_offsets m).length = m.gcode_lines.length :=
    length_line_start_offsets m
  have hklen : k - 1 < m.gcode_lines.length := by
    unfold total_lines at hk2; omega
  have hoff : offset_of_line m k = (line_start_offsets m).getD (k - 1) 0 := rfl
  refine ⟨?_, ?_, ?_⟩
  · rw [hoff]
    unfold line_start_offsets
    rw [buildOffsets_getD 0 m.gcode_lines (k - 1) hklen]
    omega
  · have hbis : bisect_right (line_start_offsets m) ((offset_of_line m k : Nat) : Int) = k := by
      apply bisect_right_eq hsorted (by unfold total_lines at hk2; omega)
      · intro i hi
        rw [hoff]
        exact_mod_cast sorted_getD_le hsorted (by omega) (by omega)
      · intro i hi hilen
        rw [hoff]
        exact_mod_cast sorted_getD_lt hsorted (by omega) hilen
    unfold get_line_number total_lines
    rw [if_neg (not_lt.mpr (Int.natCast_nonneg _)), hbis]
    exact min_eq_left hk2
  · intro hnext
    have hbis : bisect_right (line_start_offsets m)
        (((offset_of_line m k + 1 : Nat) : Int)) = k := by
      apply bisect_right_eq hsorted (by unfold total_lines at hk2; omega)
      · intro i hi
        have hile : i ≤ k - 1 := by omega
        have hmono := sorted_getD_le hsorted hile
          (by omega : k - 1 < (line_start_offsets m).length)
        rw [hoff]
        push_cast
        omega
      · intro i hi hilen
        have hklt : k < (line_start_offsets m).length := lt_of_le_of_lt hi hilen
        have hkk : (line_start_offsets m).getD (k - 1) 0 <
            (line_start_offsets m).getD k 0 :=
          sorted_getD_lt hsorted (by omega) hklt
        have hne2 := hnext (by unfold total_lines; omega)
        rw [hoff] at hne2
        have hmono : (line_start_offsets m).getD k 0 ≤
            (line_start_offsets m).getD i 0 :=
          sorted_getD_le hsorted hi hilen
        rw [hoff]
        push_cast
        omega
    unfold get_line_number total_lines
    rw [if_neg (not_lt.mpr (Int.natCast_nonneg _)), hbis]
    exact min_eq_left hk2

/-- Witness for C5 at the concrete mapper built from the three lines
"G21\n", "; 你好\n" (9 encoded bytes: the two CJK characters take three
bytes each), "M105", queried at byte position 5 (inside line 2). -/
theorem get_line_number_spec_witness :
    (∀ l ∈ (Mapper.mk ["G21\n", "; 你好\n", "M105"]).gcode_lines, l ≠ "") ∧
    (Mapper.mk ["G21\n", "; 你好\n", "M105"]).gcode_lines ≠ [] ∧
    ((5 : Int) < 0 → get_line_number (Mapper.mk ["G21\n", "; 你好\n", "M105"]) 5 = 1) ∧
    ((0 : Int) ≤ 5 →
      1 ≤ get_line_number (Mapper.mk ["G21\n", "; 你好\n", "M105"]) 5 ∧
      get_line_number (Mapper.mk ["G21\n", "; 你好\n", "M105"]) 5 ≤
        total_lines (Mapper.mk ["G21\n", "; 你好\n", "M105"]) ∧
      (((line_start_offsets (Mapper.mk ["G21\n", "; 你好\n", "M105"])).getD
          (get_line_number (Mapper.mk ["G21\n", "; 你好\n", "M105"]) 5 - 1) 0 : Nat) : Int) ≤ 5 ∧
      ∀ i : Nat, 1 ≤ i → i ≤ total_lines (Mapper.mk ["G21\n", "; 你好\n", "M105"]) →
        ((((line_start_offsets (Mapper.mk ["G21\n", "; 你好\n", "M105"])).getD (i - 1) 0 : Nat) : Int) ≤ 5) →
        i ≤ get_line_number (Mapper.mk ["G21\n", "; 你好\n", "M105"]) 5) ∧
    ((total_bytes (Mapper.mk ["G21\n", "; 你好\n", "M105"]) : Int) ≤ 5 →
      get_line_number (Mapper.mk ["G21\n", "; 你好\n", "M105"]) 5 =
        total_lines (Mapper.mk ["G21\n", "; 你好\n", "M105"])) := by
  refine ⟨by decide, by decide, ?_⟩
  exact get_line_number_spec (Mapper.mk ["G21\n", "; 你好\n", "M105"]) (by decide) (by decide) 5

/-- Witness for C6 at the same concrete mapper, line k = 2 (the multi-byte
line): its start offset is 4, querying 4 gives line 2, querying 5 gives
line 2 (line 3 starts at 13, not 5). -/
theorem round_trip_witness :
    (∀ l ∈ (Mapper.mk ["G21\n", "; 你好\n", "M105"]).gcode_lines, l ≠ "") ∧
    1 ≤ 2 ∧ 2 ≤ total_lines (Mapper.mk ["G21\n", "; 你好\n", "M105"]) ∧
    (offset_of_line (Mapper.mk ["G21\n", "; 你好\n", "M105"]) 2 =
      (((Mapper.mk ["G21\n", "; 你好\n", "M105"]).gcode_lines.take (2 - 1)).map String.utf8ByteSize).sum ∧
    get_line_number (Mapper.mk ["G21\n", "; 你好\n", "M105"])
      ((offset_of_line (Mapper.mk ["G21\n", "; 你好\n", "M105"]) 2 : Nat) : Int) = 2 ∧
    ((2 < total_lines (Mapper.mk ["G21\n", "; 你好\n", "M105"]) →
        (line_start_offsets (Mapper.mk ["G21\n", "; 你好\n", "M105"])).getD 2 0 ≠
          offset_of_line (Mapper.mk ["G21\n", "; 你好\n", "M105"]) 2 + 1) →
      get_line_number (Mapper.mk ["G21\n", "; 你好\n", "M105"])
        (((offset_of_line (Mapper.mk ["G21\n", "; 你好\n", "M105"]) 2 + 1 : Nat) : Int)) = 2)) := by
  refine ⟨by decide, by decide, by decide, ?_⟩
  exact round_trip (Mapper.mk ["G21\n", "; 你好\n", "M105"]) (by decide) 2 (by decide) (by decide)

end GcodePositionMapper

namespace TCPClient

/-- A Python float held in the telemetry fields of
`src/HEPiC/communications/tcp_client.py`: either the float `nan` (the
`np.nan` initial sentinel) or a finite value, modelled as an exact
rational. -/
inductive PyFloat where
  | nan : PyFloat
  | num : ℚ → PyFloat
deriving DecidableEq

/-- Python float subtraction: `nan` propagates. -/
def PyFloat.sub : PyFloat → PyFloat → PyFloat
  | .num a, .num b => .num (a - b)
  | _, _ => .nan

/-- Python float multiplication: `nan` propagates. -/
def PyFloat.mul : PyFloat → PyFloat → PyFloat
  | .num a, .num b => .num (a * b)
  | _, _ => .nan

/-- Python float division.  A zero divisor raises `ZeroDivisionError`
(modelled as `Option.none`) whatever the dividend is; otherwise `nan`
propagates. -/
def PyFloat.div (a b : PyFloat) : Option PyFloat :=
  if b = PyFloat.num 0 then Option.none
  else
    match a with
    | .num x =>
        match b with
        | .num y => some (.num (x / y))
        | .nan => some .nan
    | .nan => some .nan

/-- The exact rational value of the IEEE-754 double constant `np.pi`. -/
def np_pi : ℚ := 884279719003555 / 281474976710656

/-- One decoded line of the telemetry wire format: a JSON object that may
carry an `extrusion_force` and/or a `meter_count` key (`process_data`
tests key presence with `in`). -/
structure TelemetryMsg where
  extrusion_force : Option ℚ := Option.none
  meter_count : Option ℚ := Option.none
deriving DecidableEq

/-- The mutable state of a `TCPClient` (`__init__`).  The two raw-reading
fields are `Option PyFloat` because the zeroing commands compare them
against the Python object `None` (`is not None`); `__init__` stores the
float `np.nan` in them, so they are `some PyFloat.nan` from the start and
never `Option.none`. -/
structure State where
  is_running : Bool
  extrusion_force : PyFloat
  extrusion_force_offset : PyFloat
  extrusion_force_raw : Option PyFloat
  meter_count_raw : Option PyFloat
  meter_count_offset : PyFloat
  meter_count : PyFloat
  steps_total : ℚ
  wheel_diameter : ℚ
  cache_size : Nat
  meter_count_cache : List PyFloat
  time_cache : List ℚ
  filament_velocity : PyFloat
deriving DecidableEq

/-- `__init__` with its constructor parameters
(`rotary_encoder_steps_total=1000`, `rotary_encoder_wheel_diameter=28.6`,
`meter_count_cache_size=100`). -/
def init (steps_total : ℚ := 1000) (wheel_diameter : ℚ := 28.6)
    (cache_size : Nat := 100) : State where
  is_running := true
  extrusion_force := .nan
  extrusion_force_offset := .num 0
  extrusion_force_raw := some .nan
  meter_count_raw := some .nan
  meter_count_offset := .num 0
  meter_count := .nan
  steps_total := steps_total
  wheel_diameter := wheel_diameter
  cache_size := cache_size
  meter_count_cache := []
  time_cache := []
  filament_velocity := .num 0

/-- The last `n` entries of a list (all of it when it is shorter). -/
def lastN {α : Type} (n : Nat) (xs : List α) : List α :=
  xs.drop (xs.length - n)

/-- One append to a `collections.deque(maxlen=n)`: the oldest entry is
evicted from the left once the buffer is full. -/
def dequePush {α : Type} (n : Nat) (xs : List α) (x : α) : List α :=
  let ys := xs ++ [x]
  if n < ys.length then ys.drop (ys.length - n) else ys

/-- `compute_filament_velocity`, called with the wall-clock time `now`
that `time.time()` returns: push the current `meter_count` and `now` into
the two deques; if the meter deque holds exactly `cache_size` entries,
divide the meter difference between slots `cache_size - 1` and `0` by the
time difference (the `try` around the division means a
`ZeroDivisionError` leaves `filament_velocity` unchanged); otherwise set
`filament_velocity` to `0.0`.  The model assumes `cache_size ≥ 1` (the
constructor default is 100). -/
def compute_filament_velocity (s : State) (now : ℚ) : State :=
  let cache := dequePush s.cache_size s.meter_count_cache s.meter_count
  let times := dequePush s.cache_size s.time_cache now
  let s1 := { s with meter_count_cache := cache, time_cache := times }
  if cache.length = s.cache_size then
    let delta_meter := PyFloat.sub (cache.getD (s.cache_size - 1) PyFloat.nan)
      (cache.getD 0 PyFloat.nan)
    let delta_time : ℚ := times.getD (s.cache_size - 1) 0 - times.getD 0 0
    match PyFloat.div delta_meter (PyFloat.num delta_time) with
    | some v => { s1 with filament_velocity := v }
    | Option.none => s1
  else
    { s1 with filament_velocity := PyFloat.num 0 }

/-- The body of `process_data` for one dequeued message: an
`extrusion_force` key updates the raw and calibrated force; a
`meter_count` key updates the raw count, converts
`(raw - offset) / steps_total * np.pi * wheel_diameter` to millimetres
and recomputes the velocity.  A `ZeroDivisionError` in the conversion
(possible only if `steps_total` is 0) is caught by the per-message
handler after the raw count was already stored. -/
def process_message (s : State) (msg : TelemetryMsg) (now : ℚ) : State :=
  let s1 := match msg.extrusion_force with
    | some v => { s with extrusion_force_raw := some (PyFloat.num v),
                         extrusion_force := PyFloat.sub (PyFloat.num v) s.extrusion_force_offset }
    | Option.none => s
  match msg.meter_count with
  | some v =>
      let s2 := { s1 with meter_count_raw := some (PyFloat.num v) }
      match PyFloat.div (PyFloat.sub (PyFloat.num v) s1.meter_count_offset)
          (PyFloat.num s1.steps_total) with
      | some d =>
          compute_filament_velocity
            { s2 with meter_count :=
                PyFloat.mul (PyFloat.mul d (PyFloat.num np_pi)) (PyFloat.num s1.wheel_diameter) }
            now
      | Option.none => s2
  | Option.none => s1

/-- Feed a sequence of `meter_count` samples (value, wall-clock time) to
the processing loop, one message per sample. -/
def run_samples (s : State) : List (ℚ × ℚ) → State
  | [] => s
  | (v, t) :: rest => run_samples (process_message s { meter_count := some v } t) rest

/-- `set_extrusion_force_offset` (the zero-force command): Python tests
`if self.extrusion_force_raw is not None`.  The returned Boolean records
whether the warning branch ran. -/
def set_extrusion_force_offset (s : State) : State × Bool :=
  match s.extrusion_force_raw with
  | some v => ({ s with extrusion_force_offset := v }, false)
  | Option.none => (s, true)

/-- `set_meter_count_offset` (the zero-meter-count command), same shape. -/
def set_meter_count_offset (s : State) : State × Bool :=
  match s.meter_count_raw with
  | some v => ({ s with meter_count_offset := v }, false)
  | Option.none => (s, true)

/-- One unit arriving at the reader loop `receive_data`: a line whose text
parses as a JSON object, a line that is not valid JSON, or a read that
raises `ConnectionResetError` / `ConnectionAbortedError`. -/
inductive LineData where
  | ok (msg : TelemetryMsg)
  | malformed
deriving DecidableEq

inductive LineEvent where
  | line (d : LineData)
  | reset
deriving DecidableEq

/-- Why the reader loop exited: the two `except` arms of `receive_data`. -/
inductive ReaderExit where
  | sockErr
  | decodeError
deriving DecidableEq

/-- The reader loop `receive_data`: `while self.is_running: readline;
json.loads; queue.put`.  The `try`/`except` wraps the whole loop, so the
first exception of any kind ends it: a reset is caught by the first arm, a
`json.JSONDecodeError` from a malformed line by the catch-all second arm.
The result is the list of enqueued messages and the exit reason
(`Option.none` when the modelled input ran out with the loop still
alive). -/
def receive_data : List LineEvent → List TelemetryMsg × Option ReaderExit
  | [] => ([], Option.none)
  | .reset :: _ => ([], some ReaderExit.sockErr)
  | .line .malformed :: _ => ([], some ReaderExit.decodeError)
  | .line (.ok m) :: rest =>
      let r := receive_data rest
      (m :: r.1, r.2)

/-- How one established session of `run` ended: the initial
`send_data("start")` write raised (its handler sets
`self.is_running = False`), the reader hit a mid-stream reset, or the
reader exited for any other reason (peer close, decode error). -/
inductive SessionEnd where
  | startWriteFailed
  | midStreamReset
  | readerEnded
deriving DecidableEq

/-- What one iteration of the `while self.is_running` loop of `run`
observes from the environment: `open_connection` raised (refused or the
`wait_for` timeout), or a session was established and later ended. -/
inductive ConnectOutcome where
  | connectFailed
  | ok (e : SessionEnd)
deriving DecidableEq

/-- The part of the client state that `run`'s control flow reads:
the `is_running` flag and whether `self.writer` has ever been assigned
(it is first created inside the `try`, but the `finally` block closes it
unconditionally). -/
structure RunState where
  is_running : Bool
  has_writer : Bool
deriving DecidableEq

/-- Result of one iteration of `run`'s loop: an unhandled exception
escaped `run`, the loop re-enters Connecting after the three countdown
backoff steps, or the `while` condition is now false and `run` returns. -/
inductive IterResult where
  | crashed
  | again (s : RunState)
  | stopped (s : RunState)
deriving DecidableEq

/-- One iteration of `run`'s reconnect loop (`stop()` not called during
the iteration).  If `open_connection` raises, the `except` catches it but
the `finally` still runs `self.writer.close()`: when no session ever
created the writer this raises `AttributeError`, which nothing catches,
so it escapes `run`.  A failed `start` write sets `is_running` to
`False` inside `send_data`; both loops then exit at once, the backoff
block is skipped and the `while` loop terminates.  A mid-stream reset or
any other reader exit leaves `is_running` true: the writer is closed, the
countdown backoff runs and the loop re-enters Connecting. -/
def run_iter (s : RunState) (o : ConnectOutcome) : IterResult :=
  if s.is_running then
    match o with
    | .connectFailed => if s.has_writer then .again s else .crashed
    | .ok .startWriteFailed => .stopped { is_running := false, has_writer := true }
    | .ok .midStreamReset => .again { s with has_writer := true }
    | .ok .readerEnded => .again { s with has_writer := true }
  else .stopped s

end TCPClient

namespace TCPClient

theorem lastN_of_le {α : Type} {n : Nat} {xs : List α} (h : xs.length ≤ n) :
    lastN n xs = xs := by
  unfold lastN
  have h0 : xs.length - n = 0 := by omega
  rw [h0, List.drop_zero]

theorem lastN_length {α : Type} (n : Nat) (xs : List α) :
    (lastN n xs).length = min n xs.length := by
  unfold lastN
  rw [List.length_drop]
  omega

theorem dequePush_eq_lastN {α : Type} {n : Nat} {xs : List α} (x : α)
    (h : xs.length ≤ n) :
    dequePush n xs x = lastN n (xs ++ [x]) := by
  unfold dequePush lastN
  by_cases hlt : n < (xs ++ [x]).length
  · rw [if_pos hlt]
  · rw [if_neg hlt]
    push_neg at hlt
    have h0 : (xs ++ [x]).length - n = 0 := by omega
    rw [h0, List.drop_zero]

theorem dequePush_length_le {α : Type} (n : Nat) (xs : List α) (x : α)
    (h : xs.length ≤ n) :
    (dequePush n xs x).length ≤ n := by
  unfold dequePush
  by_cases hlt : n < (xs ++ [x]).length
  · rw [if_pos hlt, List.length_drop]
    omega
  · rw [if_neg hlt]
    push_neg at hlt
    omega

theorem lastN_append_lastN {α : Type} (n : Nat) (xs ys : List α) :
    lastN n (lastN n xs ++ ys) = lastN n (xs ++ ys) := by
  by_cases h : xs.length ≤ n
  · rw [lastN_of_le h]
  · push_neg at h
    unfold lastN
    have hkle : xs.length - n ≤ xs.length := by omega
    rw [← List.drop_append_of_le_length hkle, List.drop_drop]
    congr 1
    rw [List.length_drop]
    rw [List.length_append]
    omega

theorem getD_lastN {α : Type} (n : Nat) (xs : List α) (i : Nat) (d : α)
    (hn : n ≤ xs.length) (hi : i < n) :
    (lastN n xs).getD i d = xs.getD (xs.length - n + i) d := by
  unfold lastN
  rw [List.getD_eq_getElem _ d (by rw [List.length_drop]; omega)]
  rw [List.getD_eq_getElem _ d (by omega)]
  exact List.getElem_drop ..

end TCPClient

namespace TCPClient

/-- The value `PyFloat.div a (PyFloat.num q)` takes when `q` is nonzero. -/
def divByNum (a : PyFloat) (q : ℚ) : PyFloat :=
  match a with
  | .num x => .num (x / q)
  | .nan => .nan

theorem div_num_of_ne_zero (a : PyFloat) {q : ℚ} (h : q ≠ 0) :
    PyFloat.div a (PyFloat.num q) = some (divByNum a q) := by
  unfold PyFloat.div divByNum
  rw [if_neg (by simpa using h)]
  cases a <;> rfl

/-- The millimetre conversion applied to one raw `meter_count` sample:
`(raw - offset) / steps_total * np.pi * wheel_diameter`. -/
def conv (offset : PyFloat) (steps wheel : ℚ) (v : ℚ) : PyFloat :=
  PyFloat.mul (PyFloat.mul (divByNum (PyFloat.sub (PyFloat.num v) offset) steps)
    (PyFloat.num np_pi)) (PyFloat.num wheel)

theorem process_meter_sample (s : State) (v t : ℚ) (h : s.steps_total ≠ 0) :
    process_message s { meter_count := some v } t =
      compute_filament_velocity
        { s with meter_count_raw := some (PyFloat.num v),
                 meter_count := conv s.meter_count_offset s.steps_total s.wheel_diameter v } t := by
  unfold process_message
  dsimp only
  rw [div_num_of_ne_zero _ h]
  rfl

theorem compute_fields (s : State) (now : ℚ) :
    (compute_filament_velocity s now).cache_size = s.cache_size ∧
    (compute_filament_velocity s now).steps_total = s.steps_total ∧
    (compute_filament_velocity s now).wheel_diameter = s.wheel_diameter ∧
    (compute_filament_velocity s now).meter_count_offset = s.meter_count_offset ∧
    (compute_filament_velocity s now).meter_count_cache =
      dequePush s.cache_size s.meter_count_cache s.meter_count ∧
    (compute_filament_velocity s now).time_cache =
      dequePush s.cache_size s.time_cache now := by
  unfold compute_filament_velocity
  dsimp only
  split
  · split
    · exact ⟨rfl, rfl, rfl, rfl, rfl, rfl⟩
    · exact ⟨rfl, rfl, rfl, rfl, rfl, rfl⟩
  · exact ⟨rfl, rfl, rfl, rfl, rfl, rfl⟩

theorem run_samples_invariant (samples : List (ℚ × ℚ)) (s : State)
    (hsteps : s.steps_total ≠ 0)
    (hc : s.meter_count_cache.length ≤ s.cache_size)
    (ht : s.time_cache.length ≤ s.cache_size) :
    (run_samples s samples).cache_size = s.cache_size ∧
    (run_samples s samples).steps_total = s.steps_total ∧
    (run_samples s samples).wheel_diameter = s.wheel_diameter ∧
    (run_samples s samples).meter_count_offset = s.meter_count_offset ∧
    (run_samples s samples).meter_count_cache =
      lastN s.cache_size (s.meter_count_cache ++
        samples.map (fun p => conv s.meter_count_offset s.steps_total s.wheel_diameter p.1)) ∧
    (run_samples s samples).time_cache =
      lastN s.cache_size (s.time_cache ++ samples.map Prod.snd) := by
  induction samples generalizing s with
  | nil =>
    refine ⟨rfl, rfl, rfl, rfl, ?_, ?_⟩
    · rw [List.map_nil, List.append_nil, lastN_of_le hc]; rfl
    · rw [List.map_nil, List.append_nil, lastN_of_le ht]; rfl
  | cons p rest ih =>
    obtain ⟨v, t⟩ := p
    have hrun : run_samples s ((v, t) :: rest) =
        run_samples (process_message s { meter_count := some v } t) rest := rfl
    rw [hrun, process_meter_sample s v t hsteps]
    have hfields := compute_fields
      { s with meter_count_raw := some (PyFloat.num v),
               meter_count := conv s.meter_count_offset s.steps_total s.wheel_diameter v } t
    have happly := ih (compute_filament_velocity
      { s with meter_count_raw := some (PyFloat.num v),
               meter_count := conv s.meter_count_offset s.steps_total s.wheel_diameter v } t)
      (by rw [hfields.2.1]; exact hsteps)
      (by rw [hfields.2.2.2.2.1, hfields.1]; exact dequePush_length_le _ _ _ hc)
      (by rw [hfields.2.2.2.2.2, hfields.1]; exact dequePush_length_le _ _ _ ht)
    simp only [hfields.1, hfields.2.1, hfields.2.2.1, hfields.2.2.2.1,
      hfields.2.2.2.2.1, hfields.2.2.2.2.2] at happly
    refine ⟨happly.1, happly.2.1, happly.2.2.1, happly.2.2.2.1, ?_, ?_⟩
    · rw [happly.2.2.2.2.1]
      rw [dequePush_eq_lastN _ hc, lastN_append_lastN, List.append_assoc]
      simp [List.map_cons]
    · rw [happly.2.2.2.2.2]
      rw [dequePush_eq_lastN _ ht, lastN_append_lastN, List.append_assoc]
      simp [List.map_cons]

end TCPClient

namespace TCPClient

theorem compute_velocity_not_full (s : State) (now : ℚ)
    (h : (dequePush s.cache_size s.meter_count_cache s.meter_count).length ≠ s.cache_size) :
    (compute_filament_velocity s now).filament_velocity = PyFloat.num 0 := by
  unfold compute_filament_velocity
  dsimp only
  rw [if_neg h]

theorem compute_velocity_full (s : State) (now : ℚ)
    (hfull : (dequePush s.cache_size s.meter_count_cache s.meter_count).length = s.cache_size)
    (hdt : (dequePush s.cache_size s.time_cache now).getD (s.cache_size - 1) 0 -
           (dequePush s.cache_size s.time_cache now).getD 0 0 ≠ 0) :
    (compute_filament_velocity s now).filament_velocity =
      divByNum
        (PyFloat.sub
          ((dequePush s.cache_size s.meter_count_cache s.meter_count).getD (s.cache_size - 1) PyFloat.nan)
          ((dequePush s.cache_size s.meter_count_cache s.meter_count).getD 0 PyFloat.nan))
        ((dequePush s.cache_size s.time_cache now).getD (s.cache_size - 1) 0 -
         (dequePush s.cache_size s.time_cache now).getD 0 0) := by
  unfold compute_filament_velocity
  dsimp only
  rw [if_pos hfull, div_num_of_ne_zero _ hdt]

/-- The millimetre value of a raw sample under the constructor defaults
(offset 0, 1000 steps per revolution, 28.6 mm wheel). -/
def conv_mm (v : ℚ) : ℚ := (v - 0) / 1000 * np_pi * 28.6

theorem run_init_invariant (N : Nat) (pre : List (ℚ × ℚ)) :
    (run_samples (init 1000 28.6 N) pre).cache_size = N ∧
    (run_samples (init 1000 28.6 N) pre).steps_total = 1000 ∧
    (run_samples (init 1000 28.6 N) pre).wheel_diameter = 28.6 ∧
    (run_samples (init 1000 28.6 N) pre).meter_count_offset = PyFloat.num 0 ∧
    (run_samples (init 1000 28.6 N) pre).meter_count_cache =
      lastN N (pre.map (fun p => PyFloat.num (conv_mm p.1))) ∧
    (run_samples (init 1000 28.6 N) pre).time_cache = lastN N (pre.map Prod.snd) := by
  have inv := run_samples_invariant pre (init 1000 28.6 N) (by norm_num [init])
    (by simp [init]) (by simp [init])
  simpa [init, conv, divByNum, conv_mm, PyFloat.sub, PyFloat.mul] using inv

end TCPClient

namespace TCPClient

theorem conv_default (v : ℚ) :
    conv (PyFloat.num 0) 1000 28.6 v = PyFloat.num (conv_mm v) := rfl

theorem getD_map {α β : Type} (f : α → β) (xs : List α) (i : Nat) (d : β) (d' : α)
    (h : i < xs.length) : (xs.map f).getD i d = f (xs.getD i d') := by
  rw [List.getD_eq_getElem _ _ (by simpa using h), List.getD_eq_getElem _ _ h]
  exact List.getElem_map f

theorem getD_lastN_map {α β : Type} (f : α → β) (xs : List α) (N i : Nat) (d : β) (d' : α)
    (hN : N ≤ xs.length) (hi : i < N) :
    (lastN N (xs.map f)).getD i d = f (xs.getD (xs.length - N + i) d') := by
  rw [getD_lastN N (xs.map f) i d (by simpa using hN) hi, List.length_map]
  exact getD_map f xs _ d d' (by omega)

theorem run_samples_append (s : State) (xs : List (ℚ × ℚ)) (p : ℚ × ℚ) :
    run_samples s (xs ++ [p]) =
      process_message (run_samples s xs) { meter_count := some p.1 } p.2 := by
  induction xs generalizing s with
  | nil =>
    obtain ⟨v, t⟩ := p
    rfl
  | cons q rest ih =>
    obtain ⟨v, t⟩ := q
    exact ih _

/-- C2 amended: starting from a freshly constructed client with window
capacity N (other constructor defaults: 1000 encoder steps, wheel
diameter 28.6), the published `filament_velocity` is the float `0.0` —
not `nan` — as long as fewer than N meter-count samples have been pushed;
once the window holds N samples it equals (newest meter_count − oldest
meter_count) / (newest timestamp − oldest timestamp) over the N-sample
window, whenever that time difference is nonzero. -/
theorem filament_velocity_window_spec (N : Nat) (hN : 1 ≤ N) (samples : List (ℚ × ℚ)) :
    (samples.length < N →
      (run_samples (init 1000 28.6 N) samples).filament_velocity = PyFloat.num 0) ∧
    (N ≤ samples.length →
      (samples.getD (samples.length - 1) (0, 0)).2 -
          (samples.getD (samples.length - N) (0, 0)).2 ≠ 0 →
      (run_samples (init 1000 28.6 N) samples).filament_velocity =
        PyFloat.num
          ((conv_mm (samples.getD (samples.length - 1) (0, 0)).1 -
              conv_mm (samples.getD (samples.length - N) (0, 0)).1) /
            ((samples.getD (samples.length - 1) (0, 0)).2 -
              (samples.getD (samples.length - N) (0, 0)).2))) := by
  constructor
  · intro hlen
    rcases List.eq_nil_or_concat samples with rfl | ⟨pre, p, hs⟩
    · rfl
    · rw [List.concat_eq_append] at hs
      subst hs
      obtain ⟨v, t⟩ := p
      have inv := run_init_invariant N pre
      have hplen : pre.length + 1 < N := by
        rw [List.length_append] at hlen
        simpa using hlen
      rw [run_samples_append, process_meter_sample _ v t (by rw [inv.2.1]; norm_num)]
      apply compute_velocity_not_full
      dsimp only
      rw [inv.1, inv.2.2.2.2.1]
      have hlast : (lastN N (pre.map (fun p => PyFloat.num (conv_mm p.1)))).length = pre.length := by
        rw [lastN_length, List.length_map]
        omega
      rw [dequePush_eq_lastN _ (by rw [hlast]; omega), lastN_length, List.length_append, hlast]
      simp only [List.length_singleton]
      omega
  · intro hlen hdt
    rcases List.eq_nil_or_concat samples with rfl | ⟨pre, p, hs⟩
    · simp at hlen
      omega
    · rw [List.concat_eq_append] at hs
      subst hs
      obtain ⟨v, t⟩ := p
      have inv := run_init_invariant N pre
      have hL : (pre ++ [(v, t)]).length = pre.length + 1 := by simp
      have hNL : N ≤ pre.length + 1 := by rw [hL] at hlen; exact hlen
      have hlastc : (lastN N (pre.map (fun p => PyFloat.num (conv_mm p.1)))).length ≤ N := by
        rw [lastN_length]
        exact Nat.min_le_left _ _
      have hlastt : (lastN N (pre.map Prod.snd)).length ≤ N := by
        rw [lastN_length]
        exact Nat.min_le_left _ _
      have hcache : dequePush N (lastN N (pre.map (fun p => PyFloat.num (conv_mm p.1))))
            (PyFloat.num (conv_mm v)) =
          lastN N ((pre ++ [(v, t)]).map (fun p => PyFloat.num (conv_mm p.1))) := by
        rw [dequePush_eq_lastN _ hlastc, lastN_append_lastN, List.map_append]
        rfl
      have htimes : dequePush N (lastN N (pre.map Prod.snd)) t =
          lastN N ((pre ++ [(v, t)]).map Prod.snd) := by
        rw [dequePush_eq_lastN _ hlastt, lastN_append_lastN, List.map_append]
        rfl
      have hglc : (lastN N ((pre ++ [(v, t)]).map (fun p => PyFloat.num (conv_mm p.1)))).getD
            (N - 1) PyFloat.nan =
          PyFloat.num (conv_mm ((pre ++ [(v, t)]).getD ((pre ++ [(v, t)]).length - 1) (0, 0)).1) := by
        rw [getD_lastN_map _ _ N (N - 1) PyFloat.nan (0, 0) (by rw [hL]; exact hNL) (by omega)]
        have he : (pre ++ [(v, t)]).length - N + (N - 1) = (pre ++ [(v, t)]).length - 1 := by
          rw [hL]; omega
        rw [he]
      have hg0c : (lastN N ((pre ++ [(v, t)]).map (fun p => PyFloat.num (conv_mm p.1)))).getD
            0 PyFloat.nan =
          PyFloat.num (conv_mm ((pre ++ [(v, t)]).getD ((pre ++ [(v, t)]).length - N) (0, 0)).1) := by
        rw [getD_lastN_map _ _ N 0 PyFloat.nan (0, 0) (by rw [hL]; exact hNL) (by omega)]
        rw [Nat.add_zero]
      have hglt : (lastN N ((pre ++ [(v, t)]).map Prod.snd)).getD (N - 1) 0 =
          ((pre ++ [(v, t)]).getD ((pre ++ [(v, t)]).length - 1) (0, 0)).2 := by
        rw [getD_lastN_map Prod.snd _ N (N - 1) 0 (0, 0) (by rw [hL]; exact hNL) (by omega)]
        have he : (pre ++ [(v, t)]).length - N + (N - 1) = (pre ++ [(v, t)]).length - 1 := by
          rw [hL]; omega
        rw [he]
      have hg0t : (lastN N ((pre ++ [(v, t)]).map Prod.snd)).getD 0 0 =
          ((pre ++ [(v, t)]).getD ((pre ++ [(v, t)]).length - N) (0, 0)).2 := by
        rw [getD_lastN_map Prod.snd _ N 0 0 (0, 0) (by rw [hL]; exact hNL) (by omega)]
        rw [Nat.add_zero]
      have hfull : (dequePush (run_samples (init 1000 28.6 N) pre).cache_size
          (run_samples (init 1000 28.6 N) pre).meter_count_cache
          (conv (run_samples (init 1000 28.6 N) pre).meter_count_offset
            (run_samples (init 1000 28.6 N) pre).steps_total
            (run_samples (init 1000 28.6 N) pre).wheel_diameter v)).length =
          (run_samples (init 1000 28.6 N) pre).cache_size := by
        rw [inv.1, inv.2.1, inv.2.2.1, inv.2.2.2.1, inv.2.2.2.2.1, conv_default, hcache,
          lastN_length, List.length_map, hL]
        omega
      have ht2 : dequePush (run_samples (init 1000 28.6 N) pre).cache_size
          (run_samples (init 1000 28.6 N) pre).time_cache t =
          lastN N ((pre ++ [(v, t)]).map Prod.snd) := by
        rw [inv.1, inv.2.2.2.2.2, htimes]
      have hdtX : (dequePush (run_samples (init 1000 28.6 N) pre).cache_size
            (run_samples (init 1000 28.6 N) pre).time_cache t).getD
            ((run_samples (init 1000 28.6 N) pre).cache_size - 1) 0 -
          (dequePush (run_samples (init 1000 28.6 N) pre).cache_size
            (run_samples (init 1000 28.6 N) pre).time_cache t).getD 0 0 ≠ 0 := by
        rw [ht2, inv.1, hglt, hg0t]
        exact hdt
      rw [run_samples_append, process_meter_sample _ v t (by rw [inv.2.1]; norm_num)]
      rw [compute_velocity_full
        { run_samples (init 1000 28.6 N) pre with
            meter_count_raw := some (PyFloat.num v),
            meter_count := conv (run_samples (init 1000 28.6 N) pre).meter_count_offset
              (run_samples (init 1000 28.6 N) pre).steps_total
              (run_samples (init 1000 28.6 N) pre).wheel_diameter v } t hfull hdtX]
      dsimp only
      rw [inv.1, inv.2.1, inv.2.2.1, inv.2.2.2.1, inv.2.2.2.2.1, inv.2.2.2.2.2, conv_default,
        hcache, htimes, hglc, hg0c, hglt, hg0t]
      rfl

end TCPClient

namespace TCPClient

/-- C2 counterexample: with window capacity 2, after a single meter-count
sample (value 3 at time 0) the published `filament_velocity` is the float
`0.0` and not `nan`, refuting the claim that it is not-a-number while
fewer than N samples have been pushed. -/
theorem velocity_before_full_is_zero_not_nan :
    (run_samples (init 1000 28.6 2) [(3, 0)]).filament_velocity = PyFloat.num 0 ∧
    PyFloat.num 0 ≠ PyFloat.nan := by
  constructor
  · rfl
  · decide

/-- Witness for C2 (amended): window capacity 2 and the two samples
(3 at time 0) and (5 at time 1) give velocity
(conv_mm 5 − conv_mm 3) / (1 − 0). -/
theorem filament_velocity_window_spec_witness :
    1 ≤ 2 ∧
    (run_samples (init 1000 28.6 2) [(3, 0), (5, 1)]).filament_velocity =
      PyFloat.num ((conv_mm 5 - conv_mm 3) / (1 - 0)) := by
  refine ⟨by decide, ?_⟩
  have h := (filament_velocity_window_spec 2 (by decide) [(3, 0), (5, 1)]).2
    (by decide) (by norm_num)
  simpa using h

/-- C7 (code-bug evidence): calling the zero commands before any
telemetry sample has arrived is not a warning no-op.  The raw readings
are initialised to the float `np.nan`, which passes the `is not None`
test, so both offsets are overwritten with `nan` instead of keeping
their initial 0, and the warning branch (second component `true`) never
runs. -/
theorem zero_commands_before_any_sample :
    (set_extrusion_force_offset init).1.extrusion_force_offset = PyFloat.nan ∧
    (set_extrusion_force_offset init).2 = false ∧
    (set_meter_count_offset init).1.meter_count_offset = PyFloat.nan ∧
    (set_meter_count_offset init).2 = false ∧
    PyFloat.nan ≠ PyFloat.num 0 := by
  refine ⟨rfl, rfl, rfl, rfl, by decide⟩

/-- C4 counterexample: a line that is not valid JSON is followed by a
well-formed line; the reader loop enqueues nothing, never reads the
second line, and exits through the catch-all handler — the decode failure
terminates the loop (and hence the session) instead of being dropped. -/
theorem malformed_line_stops_reader :
    receive_data [LineEvent.line LineData.malformed,
        LineEvent.line (LineData.ok { extrusion_force := some 1 })] =
      ([], some ReaderExit.decodeError) ∧
    some ReaderExit.decodeError ≠ some ReaderExit.sockErr := by
  refine ⟨rfl, by decide⟩

/-- C4 amended: every well-formed line before the first bad event is
decoded and enqueued in order; the first malformed line is logged and
exits the reader loop through the catch-all `except` (no later line is
read, whatever follows), and a socket reset exits it through the
reset handler. -/
theorem reader_loop_exit_behavior (pre : List TelemetryMsg) (rest : List LineEvent) :
    receive_data (pre.map (fun m => LineEvent.line (LineData.ok m)) ++
        LineEvent.line LineData.malformed :: rest) =
      (pre, some ReaderExit.decodeError) ∧
    receive_data (pre.map (fun m => LineEvent.line (LineData.ok m)) ++
        LineEvent.reset :: rest) =
      (pre, some ReaderExit.sockErr) := by
  induction pre with
  | nil => exact ⟨rfl, rfl⟩
  | cons m ms ih =>
    refine ⟨?_, ?_⟩
    · show (m :: (receive_data (ms.map _ ++ LineEvent.line LineData.malformed :: rest)).1,
        (receive_data (ms.map _ ++ LineEvent.line LineData.malformed :: rest)).2) = _
      rw [ih.1]
    · show (m :: (receive_data (ms.map _ ++ LineEvent.reset :: rest)).1,
        (receive_data (ms.map _ ++ LineEvent.reset :: rest)).2) = _
      rw [ih.2]

/-- C3 counterexample: with `is_running` true and no writer ever created
(the very first connection attempt), a refused/timed-out connect makes
the iteration crash (`AttributeError` from `self.writer.close()` in the
`finally` block escapes `run`) instead of re-entering Connecting. -/
theorem first_connect_refused_crashes :
    run_iter { is_running := true, has_writer := false } ConnectOutcome.connectFailed =
      IterResult.crashed ∧
    IterResult.crashed ≠
      IterResult.again { is_running := true, has_writer := false } := by
  refine ⟨rfl, by decide⟩

/-- C3 amended: while the client has not been stopped, a mid-stream reset
(or any other reader exit) re-enters Connecting after the backoff; a
refused or timed-out connect re-enters Connecting only when a previous
session already created the writer and otherwise raises an unhandled
`AttributeError` out of `run`; and a failed write of the initial "start"
line sets `is_running` to `False`, which terminates the reconnect loop
for good rather than retrying. -/
theorem run_iteration_failure_semantics (s : RunState) (h : s.is_running = true) :
    run_iter s (ConnectOutcome.ok SessionEnd.midStreamReset) =
      IterResult.again { s with has_writer := true } ∧
    run_iter s (ConnectOutcome.ok SessionEnd.readerEnded) =
      IterResult.again { s with has_writer := true } ∧
    (s.has_writer = true → run_iter s ConnectOutcome.connectFailed = IterResult.again s) ∧
    (s.has_writer = false → run_iter s ConnectOutcome.connectFailed = IterResult.crashed) ∧
    run_iter s (ConnectOutcome.ok SessionEnd.startWriteFailed) =
      IterResult.stopped { is_running := false, has_writer := true } := by
  unfold run_iter
  rw [h]
  refine ⟨rfl, rfl, ?_, ?_, rfl⟩
  · intro hw
    rw [if_pos rfl, hw]
    rfl
  · intro hw
    rw [if_pos rfl, hw]
    rfl

/-- Witness for C3 (amended) at the state of a client that has connected
at least once before (`has_writer = true`) and is still running. -/
theorem run_iteration_failure_semantics_witness :
    (⟨true, true⟩ : RunState).is_running = true ∧
    (run_iter ⟨true, true⟩ (ConnectOutcome.ok SessionEnd.midStreamReset) =
        IterResult.again { (⟨true, true⟩ : RunState) with has_writer := true } ∧
      run_iter ⟨true, true⟩ (ConnectOutcome.ok SessionEnd.readerEnded) =
        IterResult.again { (⟨true, true⟩ : RunState) with has_writer := true } ∧
      ((⟨true, true⟩ : RunState).has_writer = true →
        run_iter ⟨true, true⟩ ConnectOutcome.connectFailed = IterResult.again ⟨true, true⟩) ∧
      ((⟨true, true⟩ : RunState).has_writer = false →
        run_iter ⟨true, true⟩ ConnectOutcome.connectFailed = IterResult.crashed) ∧
      run_iter ⟨true, true⟩ (ConnectOutcome.ok SessionEnd.startWriteFailed) =
        IterResult.stopped { is_running := false, has_writer := true }) :=
  ⟨rfl, run_iteration_failure_semantics ⟨true, true⟩ rfl⟩

end TCPClient

namespace KlipperWorker

/-- A Python value held in the worker's published data fields of
`src/HEPiC/communications/klipper_worker.py`: the object `None` (stored
by `.get(...)` calls with no default), the float `np.nan`, or a finite
number. -/
inductive PyVal where
  | none : PyVal
  | nan : PyVal
  | num : ℚ → PyVal
deriving DecidableEq

/-- The nested sub-objects that the dispatcher extracts from a result
status payload with chained `.get`. -/
structure ExtruderStatus where
  temperature : Option ℚ := Option.none
  target : Option ℚ := Option.none
deriving DecidableEq

structure MotionReport where
  live_extruder_velocity : Option ℚ := Option.none
deriving DecidableEq

structure VirtualSdcard where
  progress : Option ℚ := Option.none
  file_position : Option ℚ := Option.none
deriving DecidableEq

structure StatusPayload where
  extruder : Option ExtruderStatus := Option.none
  motion_report : Option MotionReport := Option.none
  virtual_sdcard : Option VirtualSdcard := Option.none
deriving DecidableEq

structure ResultPayload where
  status : Option StatusPayload := Option.none
deriving DecidableEq

/-- A decoded JSON-RPC frame as `data_processor` sees it.  The dispatcher
branches only on key presence (`"method" in data`, `"error" in data`,
`"result" in data`, `"id" in data`) and on the `method` string, so a
frame is modelled by those fields.  `params_status` carries the payload
of a `notify_status_update` notification (never read by this dispatcher),
`params_text` the string list of a `notify_gcode_response`, `script` the
`params.script` text of an outgoing `printer.gcode.script` request
(forwarded verbatim inside the frame). -/
structure Data where
  method : Option String := Option.none
  params_status : List StatusPayload := []
  params_text : List String := []
  script : Option String := Option.none
  error : Option (Int × String) := Option.none
  result : Option ResultPayload := Option.none
  id : Option Int := Option.none
deriving DecidableEq

/-- The published data container as filled by `_init_data`. -/
structure WorkerData where
  active_feedrate_mms : PyVal
  hotend_temperature : PyVal
  target_hotend_temperature : PyVal
  progress : PyVal
  file_position : PyVal
  active_gcode : String
deriving DecidableEq

def init_data : WorkerData where
  active_feedrate_mms := .num 0
  hotend_temperature := .nan
  target_hotend_temperature := .nan
  progress := .num 0
  file_position := .num 0
  active_gcode := ""

/-- Observable actions of one dispatcher step: a frame written to the
websocket, a signal emission, or a log line. -/
inductive Effect where
  | send (d : Data)
  | gcode_response (s : String)
  | gcode_error (s : String)
  | connection_status (s : String)
  | log
deriving DecidableEq

/-- Python `dict.get(key, default)` on an optional numeric field. -/
def getNum (o : Option ℚ) (dflt : PyVal) : PyVal :=
  match o with
  | some q => .num q
  | Option.none => dflt

/-- The text `f"Error {code}: {message}"` built in the error branch. -/
def errString (e : Int × String) : String :=
  "Error " ++ toString e.1 ++ ": " ++ e.2

/-- One step of `data_processor`: dispatch one dequeued frame.  A frame
with a `method` key is written to the socket when the method is one of
the four outbound methods, emitted as a gcode response when it is
`notify_gcode_response`, and otherwise only debug-logged (this is where a
`notify_status_update` notification lands).  A frame with an `error` key
emits the error text; a frame with a `result` key is logged and, when its
id is 2 (the periodic `printer.objects.query`), the published fields are
re-assigned from the `.get` chains (`np.nan` defaults for the extruder
fields, Python `None` for the rest). -/
def process_one (w : WorkerData) (d : Data) : WorkerData × List Effect :=
  match d.method with
  | some m =>
      if m = "printer.gcode.script" ∨ m = "printer.objects.subscribe" ∨
          m = "printer.objects.query" ∨ m = "printer.emergency_stop" then
        (w, [Effect.send d])
      else if m = "notify_gcode_response" then
        (w, [Effect.gcode_response (d.params_text.getD 0 "")])
      else
        (w, [Effect.log])
  | Option.none =>
      match d.error with
      | some e =>
          (w, [Effect.log, Effect.gcode_error (errString e),
               Effect.connection_status (errString e)])
      | Option.none =>
          match d.result with
          | some r =>
              match d.id with
              | some i =>
                  if i = 2 then
                    ({ w with
                        hotend_temperature :=
                          getNum ((r.status.getD {}).extruder.getD {}).temperature PyVal.nan,
                        target_hotend_temperature :=
                          getNum ((r.status.getD {}).extruder.getD {}).target PyVal.nan,
                        active_feedrate_mms :=
                          getNum ((r.status.getD {}).motion_report.getD {}).live_extruder_velocity
                            PyVal.none,
                        progress :=
                          getNum ((r.status.getD {}).virtual_sdcard.getD {}).progress PyVal.none,
                        file_position :=
                          getNum ((r.status.getD {}).virtual_sdcard.getD {}).file_position
                            PyVal.none },
                      [Effect.log])
                  else (w, [Effect.log])
              | Option.none => (w, [Effect.log])
          | Option.none => (w, [Effect.log])

/-- `send_gcode`: enqueue one `printer.gcode.script` request (id 3) whose
`params.script` is the whole gcode text, dispatched as one unit. -/
def send_gcode (q : List Data) (gcode : String) : List Data :=
  q ++ [{ method := some "printer.gcode.script", script := some gcode, id := some 3 }]

/-- `set_temperature`: enqueue the single-command request (id 104). -/
def set_temperature (q : List Data) (target : ℚ) : List Data :=
  q ++ [{ method := some "printer.gcode.script",
          script := some ("M104 S" ++ toString target), id := some 104 }]

/-- `subscribe_printer_status`: enqueue the subscribe request (id 1); the
object map of its params is carried opaquely. -/
def subscribe_printer_status (q : List Data) : List Data :=
  q ++ [{ method := some "printer.objects.subscribe", id := some 1 }]

/-- `emergency_stop`: enqueue the dedicated frame
`{"jsonrpc": "2.0", "method": "printer.emergency_stop", "id": 0}` — on
the same `message_queue` as every other outbound frame. -/
def emergency_stop (q : List Data) : List Data :=
  q ++ [{ method := some "printer.emergency_stop", id := some 0 }]

/-- The dispatcher drains the FIFO queue in order. -/
def process_queue (w : WorkerData) : List Data → WorkerData × List Effect
  | [] => (w, [])
  | d :: rest =>
      let r1 := process_one w d
      let r2 := process_queue r1.1 rest
      (r2.1, r1.2 ++ r2.2)

/-- Select the frames written to the websocket. -/
def sendOf : Effect → Option Data
  | Effect.send d => some d
  | _ => Option.none

/-- The frames actually transmitted while draining `q` from data `w`. -/
def sent_frames (w : WorkerData) (q : List Data) : List Data :=
  (process_queue w q).2.filterMap sendOf

/-- The queue drain `run` performs after every successful connect and
before the listener/dispatcher tasks start:
`while not self.message_queue.empty(): self.message_queue.get_nowait()`. -/
def drain_queue : List Data → List Data
  | [] => []
  | _ :: rest => drain_queue rest

end KlipperWorker

namespace KlipperWorker

/-- C1 counterexample: the dispatcher receives exactly the notification
of the spec scenario, `{"method": "notify_status_update", "params":
[{"extruder": {"temperature": 205.3}}]}`, starting from the initial
published data.  The published data is unchanged — the hotend
temperature stays `nan` instead of becoming 205.3 — and the frame is
only debug-logged. -/
theorem notify_status_update_not_dispatched :
    (process_one init_data
        { method := some "notify_status_update",
          params_status := [{ extruder := some { temperature := some (2053/10) } }] }).1 =
      init_data ∧
    (process_one init_data
        { method := some "notify_status_update",
          params_status := [{ extruder := some { temperature := some (2053/10) } }] }).1.hotend_temperature ≠
      PyVal.num (2053/10) ∧
    (process_one init_data
        { method := some "notify_status_update",
          params_status := [{ extruder := some { temperature := some (2053/10) } }] }).2 =
      [Effect.log] := by
  refine ⟨rfl, by decide, rfl⟩

/-- C1 amended: a `notify_status_update` notification is not handled by
this dispatcher at all.  Whatever its payload and other fields, the
dispatcher only debug-logs it and every published field retains its
prior value (the hotend temperature is instead refreshed by the result
frames of the periodic id-2 `printer.objects.query`). -/
theorem notify_status_update_only_logged (w : WorkerData) (ps : List StatusPayload)
    (pt : List String) (sc : Option String) (e : Option (Int × String))
    (r : Option ResultPayload) (i : Option Int) :
    process_one w
      { method := some "notify_status_update", params_status := ps,
        params_text := pt, script := sc, error := e, result := r, id := i } =
      (w, [Effect.log]) := rfl

theorem process_queue_cons (w : WorkerData) (d : Data) (q : List Data) :
    process_queue w (d :: q) =
      ((process_queue (process_one w d).1 q).1,
        (process_one w d).2 ++ (process_queue (process_one w d).1 q).2) := rfl

theorem sent_frames_cons (w : WorkerData) (d : Data) (q : List Data) :
    sent_frames w (d :: q) =
      (process_one w d).2.filterMap sendOf ++ sent_frames (process_one w d).1 q := by
  unfold sent_frames
  rw [process_queue_cons, List.filterMap_append]

theorem process_one_send_mem (w : WorkerData) (d e : Data)
    (h : Effect.send e ∈ (process_one w d).2) : e = d := by
  unfold process_one at h
  repeat' split at h
  all_goals simp_all

theorem mem_sent_frames (w : WorkerData) (q : List Data) (m : Data)
    (h : m ∈ sent_frames w q) : m ∈ q := by
  induction q generalizing w with
  | nil => simp [sent_frames, process_queue] at h
  | cons d rest ih =>
    rw [sent_frames_cons] at h
    rcases List.mem_append.mp h with h1 | h2
    · obtain ⟨e, he, hes⟩ := List.mem_filterMap.mp h1
      cases e with
      | send d2 =>
        simp only [sendOf, Option.some.injEq] at hes
        subst hes
        have hd := process_one_send_mem w d d2 he
        subst hd
        exact List.mem_cons_self _ _
      | gcode_response s => simp [sendOf] at hes
      | gcode_error s => simp [sendOf] at hes
      | connection_status s => simp [sendOf] at hes
      | log => simp [sendOf] at hes
    · exact List.mem_cons_of_mem _ (ih _ h2)

/-- C8 counterexample: with an ordinary command already enqueued,
`emergency_stop` places the dedicated frame on the same FIFO
`message_queue`, and the dispatcher writes it to the socket only after
the ordinary `printer.gcode.script` frame — the emergency frame does not
bypass the backlog. -/
theorem emergency_stop_behind_queue :
    sent_frames init_data (emergency_stop (send_gcode [] "G1 X10")) =
      [{ method := some "printer.gcode.script", script := some "G1 X10", id := some 3 },
       { method := some "printer.emergency_stop", id := some 0 }] ∧
    (sent_frames init_data (emergency_stop (send_gcode [] "G1 X10"))).getD 0
        { method := Option.none } ≠
      ({ method := some "printer.emergency_stop", id := some 0 } : Data) := by
  refine ⟨rfl, by decide⟩

/-- C8 amended: `emergency_stop` does enqueue a dedicated
`printer.emergency_stop` method, distinct from the
`printer.gcode.script` path used by `send_command`, but it goes through
the same FIFO message queue as every ordinary command: draining the
queue transmits it only after all previously enqueued frames. -/
theorem emergency_stop_same_fifo (w : WorkerData) (q : List Data) :
    emergency_stop q = q ++ [{ method := some "printer.emergency_stop", id := some 0 }] ∧
    (some "printer.emergency_stop" : Option String) ≠ some "printer.gcode.script" ∧
    sent_frames w (emergency_stop q) =
      sent_frames w q ++ [{ method := some "printer.emergency_stop", id := some 0 }] := by
  refine ⟨rfl, by decide, ?_⟩
  induction q generalizing w with
  | nil => rfl
  | cons d rest ih =>
    show sent_frames w (d :: emergency_stop rest) = sent_frames w (d :: rest) ++ _
    rw [sent_frames_cons, sent_frames_cons, ih, List.append_assoc]

theorem drain_queue_eq_nil (q : List Data) : drain_queue q = [] := by
  induction q with
  | nil => rfl
  | cons d rest ih => exact ih

/-- C10: after every successful (re)connect, `run` first empties the
message queue and only then starts the listener/dispatcher tasks; hence
the pending queue contents are discarded: the drained queue is empty,
processing after the reconnect transmits exactly the frames enqueued
afterwards, and a frame that was pending while disconnected but not
re-enqueued is never transmitted to the peer. -/
theorem reconnect_discards_pending (pre new : List Data) (w : WorkerData) (m : Data)
    (hm : m ∈ pre) (hnew : m ∉ new) :
    drain_queue pre = [] ∧
    sent_frames w (drain_queue pre ++ new) = sent_frames w new ∧
    m ∉ sent_frames w (drain_queue pre ++ new) := by
  refine ⟨drain_queue_eq_nil pre, ?_, ?_⟩
  · rw [drain_queue_eq_nil pre, List.nil_append]
  · rw [drain_queue_eq_nil pre, List.nil_append]
    intro hmem
    exact hnew (mem_sent_frames w new m hmem)

/-- Witness for C10: an emergency-stop frame enqueued while disconnected
(the pending queue) is dropped by the drain and never transmitted when
nothing is re-enqueued afterwards. -/
theorem reconnect_discards_pending_witness :
    ({ method := some "printer.emergency_stop", id := some 0 } : Data) ∈
      [({ method := some "printer.emergency_stop", id := some 0 } : Data)] ∧
    ({ method := some "printer.emergency_stop", id := some 0 } : Data) ∉ ([] : List Data) ∧
    (drain_queue [{ method := some "printer.emergency_stop", id := some 0 }] = [] ∧
     sent_frames init_data
         (drain_queue [{ method := some "printer.emergency_stop", id := some 0 }] ++ []) =
       sent_frames init_data [] ∧
     ({ method := some "printer.emergency_stop", id := some 0 } : Data) ∉
       sent_frames init_data
         (drain_queue [{ method := some "printer.emergency_stop", id := some 0 }] ++ [])) := by
  refine ⟨by decide, by decide, ?_⟩
  exact reconnect_discards_pending
    [{ method := some "printer.emergency_stop", id := some 0 }] [] init_data
    { method := some "printer.emergency_stop", id := some 0 } (by decide) (by decide)

end KlipperWorker

namespace ConnectionTester

/-- One emitted `test_msg` line of `ConnectionTester.run`
(`src/src/communications/connection_tester.py`), abstracted to its role:
the opening "checking the network" line, the "[step k/4] ..." start
announcement, the check-mark success line of step k, the cross-mark
failure line of step k, the extra advisory line that follows a step-2
failure, and the closing "all checks passed, ready to connect" line. -/
inductive Msg where
  | checking
  | stepStart (k : Nat)
  | stepOk (k : Nat)
  | stepFail (k : Nat)
  | portHint
  | allPassed
deriving DecidableEq

/-- A terminal signal emission.  In the source, `success = Signal()` and
`fail = Signal()` (lines 9-12); the `Option String` payload records what
was passed to `emit` — `Option.none` for the parameterless
`self.success.emit()` the code performs. -/
inductive Sig where
  | success (payload : Option String)
  | fail
deriving DecidableEq

/-- The probe outcomes one run observes: whether the ping subprocess
returned 0, whether the TCP connect succeeded, whether the Moonraker
HTTP check returned 200, and the (ok, state) pair returned by
`_check_klipper_async`. -/
structure Env where
  ping_ok : Bool
  port_ok : Bool
  moonraker_ok : Bool
  klipper_ok : Bool
  klipper_state : String
deriving DecidableEq

/-- The body of `run`: four strictly ordered checks, each announced by a
"[step k/4]" line; a failing check emits its cross-mark line (step 2
also emits an advisory line), emits `fail` and returns, skipping all
later steps; when every check passes the closing line is emitted and
`success.emit()` fires with no argument. -/
def run (e : Env) : List Msg × List Sig :=
  if e.ping_ok = false then
    ([Msg.checking, Msg.stepStart 1, Msg.stepFail 1], [Sig.fail])
  else if e.port_ok = false then
    ([Msg.checking, Msg.stepStart 1, Msg.stepOk 1, Msg.stepStart 2, Msg.stepFail 2,
      Msg.portHint], [Sig.fail])
  else if e.moonraker_ok = false then
    ([Msg.checking, Msg.stepStart 1, Msg.stepOk 1, Msg.stepStart 2, Msg.stepOk 2,
      Msg.stepStart 3, Msg.stepFail 3], [Sig.fail])
  else if e.klipper_ok = false then
    ([Msg.checking, Msg.stepStart 1, Msg.stepOk 1, Msg.stepStart 2, Msg.stepOk 2,
      Msg.stepStart 3, Msg.stepOk 3, Msg.stepStart 4, Msg.stepFail 4], [Sig.fail])
  else
    ([Msg.checking, Msg.stepStart 1, Msg.stepOk 1, Msg.stepStart 2, Msg.stepOk 2,
      Msg.stepStart 3, Msg.stepOk 3, Msg.stepStart 4, Msg.stepOk 4, Msg.allPassed],
     [Sig.success Option.none])

/-- How many of the four steps execute: the first failing step and
everything before it, or all four. -/
def executed_steps (e : Env) : Nat :=
  if e.ping_ok = false then 1
  else if e.port_ok = false then 2
  else if e.moonraker_ok = false then 3
  else 4

/-- The step index announced by a "[step k/4]" line. -/
def startTag : Msg → Option Nat
  | Msg.stepStart k => some k
  | _ => Option.none

/-- The step index of a line with success or failure wording (the lines
beginning with the check or cross mark). -/
def outcomeTag : Msg → Option Nat
  | Msg.stepOk k => some k
  | Msg.stepFail k => some k
  | _ => Option.none

def all_ok (e : Env) : Bool :=
  e.ping_ok && e.port_ok && e.moonraker_ok && e.klipper_ok

/-- C9 counterexample: with every check passing (Klipper state "ready"),
exactly one terminal signal fires, but it is `success.emit()` with no
argument: the success signal does not carry the validated host — the
claim that the terminal success signal carries the host fails on the
cited code, whose `success` signal is declared `Signal()` and emitted
bare. -/
theorem success_signal_carries_no_host :
    (run { ping_ok := true, port_ok := true, moonraker_ok := true,
           klipper_ok := true, klipper_state := "ready" }).2 =
      [Sig.success Option.none] ∧
    Sig.success Option.none ≠ Sig.success (some "192.168.22.65") := by
  refine ⟨rfl, by decide⟩

/-- C9 amended: for every run, the four checks execute in strict order —
the announced steps are exactly 1..n for n the first failing step (or 4)
— a step runs only if all previous ones succeeded and the first failure
short-circuits the rest; the executed steps each emit exactly one
outcome-worded progress line, in order; and exactly one terminal signal
is emitted: success (with no payload — the validated host is not
carried) exactly when all four checks pass, failure otherwise, never
both and never more than one. -/
theorem run_spec (e : Env) :
    (run e).1.filterMap startTag = List.range' 1 (executed_steps e) ∧
    (run e).1.filterMap outcomeTag = List.range' 1 (executed_steps e) ∧
    (run e).2.length = 1 ∧
    ((run e).2 = [Sig.success Option.none] ↔ all_ok e = true) ∧
    (all_ok e = false → (run e).2 = [Sig.fail]) := by
  obtain ⟨p1, p2, p3, p4, st⟩ := e
  cases p1 <;> cases p2 <;> cases p3 <;> cases p4 <;>
    exact ⟨rfl, rfl, rfl, by simp [run, all_ok], by simp [run, all_ok]⟩

end ConnectionTester
